import Mathlib

/-
Shallow embedding of the SPARQL evaluator in `src/lib/src/sparql/eval.rs`
(struct `SimpleEvaluator` and its iterator helpers).

Modelling conventions:
* Dictionary ids (`u64`) are modelled as `Nat` (ids are opaque keys; no claim
  depends on 64-bit wraparound).
* `i128` integers are modelled as `Int` (no claim depends on overflow) and
  `rust_decimal::Decimal` as `ℚ` (its 28-digit rounding is not modelled; the
  only claim touching decimal arithmetic concerns the zero divisor).
* The float variants (`FloatLiteral`, `DoubleLiteral`) and the datetime
  variants of `EncodedTerm` are omitted from the model (floating point and
  calendar arithmetic).
* A Rust panic (integer division by zero, out-of-bounds `Vec` indexing, a
  loop that cannot terminate) is modelled as `Except.error ()`; the SPARQL
  type error (`Option::None` in the source) is modelled as `Option.none`
  inside `Except.ok`.
* Fresh blank nodes (`BlankNode::default()`, a random uuid in the source)
  are modelled by a counter threaded through the evaluation state.
-/

deriving instance DecidableEq for Except

namespace Oxigraph

/-- Model of `EncodedTerm` (src/lib has it in `store::numeric_encoder`,
which is outside `src/`; the variant list follows §3 of the spec and the
uses visible in `eval.rs`). Float, double and datetime variants omitted. -/
inductive EncodedTerm where
  | DefaultGraph : EncodedTerm
  | NamedNode (iri_id : Nat) : EncodedTerm
  | BlankNode (id : Nat) : EncodedTerm
  | SimpleLiteral (value_id : Nat) : EncodedTerm
  | StringLiteral (value_id : Nat) : EncodedTerm
  | LangStringLiteral (value_id language_id : Nat) : EncodedTerm
  | TypedLiteral (value_id datatype_id : Nat) : EncodedTerm
  | BooleanLiteral (value : Bool) : EncodedTerm
  | IntegerLiteral (value : Int) : EncodedTerm
  | DecimalLiteral (value : ℚ) : EncodedTerm
  deriving DecidableEq, Repr

/-- `EncodedTuple = Vec<Option<EncodedTerm>>` in the source. -/
abbrev EncodedTuple := List (Option EncodedTerm)

/-- Modelled from the spec: the dictionary id of the empty string, used by
`ENCODED_EMPTY_SIMPLE_LITERAL` and `ENCODED_EMPTY_STRING_LITERAL`
(constants of `store::numeric_encoder`, which is outside `src/`). -/
def emptyStringId : Nat := 0

/-- The read side of `DatasetView` used by the expression evaluator:
`get_str(id)` (`Result` in the source, failures modelled as `none`). -/
structure Dataset where
  getStr : Nat → Option String

/-- Mutable evaluator state: the per-evaluation blank-node map of
`SimpleEvaluator` (`bnodes_map: Arc<Mutex<BTreeMap<u64, BlankNode>>>`) plus
a counter supplying the fresh blank nodes of `BlankNode::default()`. -/
structure EvalState where
  bnodesMap : List (Nat × Nat)
  nextBnode : Nat
  deriving DecidableEq, Repr

/-- Lookup in the blank-node map (`BTreeMap::get`-like; the map is only ever
extended with keys not already present, so an association list suffices). -/
def mapFind (k : Nat) : List (Nat × Nat) → Option Nat
  | [] => none
  | (k2, v) :: rest => if k = k2 then some v else mapFind k rest

/-- Model of the subset of `PlanExpression` that the claims exercise. -/
inductive PlanExpression where
  | Constant (t : EncodedTerm) : PlanExpression
  | Variable (v : Nat) : PlanExpression
  | Or (a b : PlanExpression) : PlanExpression
  | And (a b : PlanExpression) : PlanExpression
  | Equal (a b : PlanExpression) : PlanExpression
  | NotEqual (a b : PlanExpression) : PlanExpression
  | SameTerm (a b : PlanExpression) : PlanExpression
  | Div (a b : PlanExpression) : PlanExpression
  | UnaryNot (e : PlanExpression) : PlanExpression
  | Bound (v : Nat) : PlanExpression
  | BNode (arg : Option PlanExpression) : PlanExpression

/-- `get_tuple_value`: out-of-range reads yield unbound (eval.rs:929). -/
def getTupleValue (v : Nat) (tuple : EncodedTuple) : Option EncodedTerm :=
  if h : v < tuple.length then tuple.get ⟨v, h⟩ else none

/-- `has_tuple_value` (eval.rs:937). -/
def hasTupleValue (v : Nat) (tuple : EncodedTuple) : Bool :=
  if h : v < tuple.length then (tuple.get ⟨v, h⟩).isSome else false

/-- `put_value`: writing past the end grows the tuple with unbound padding
(eval.rs:962). -/
def putValue (position : Nat) (value : EncodedTerm) (tuple : EncodedTuple) : EncodedTuple :=
  if position < tuple.length then tuple.set position (some value)
  else tuple ++ List.replicate (position - tuple.length) none ++ [some value]

/-- `SimpleEvaluator::to_bool` (eval.rs:682): effective boolean value. -/
def toBool (term : EncodedTerm) : Option Bool :=
  match term with
  | .BooleanLiteral value => some value
  | .SimpleLiteral value_id => some (decide (value_id ≠ emptyStringId))
  | .StringLiteral value_id => some (decide (value_id ≠ emptyStringId))
  | .IntegerLiteral value => some (decide (value ≠ 0))
  | .DecimalLiteral value => some (decide (value ≠ 0))
  | _ => none

/-- `SimpleEvaluator::compare_str_ids` (eval.rs:913). -/
def compareStrIds (ds : Dataset) (a b : Nat) : Option Ordering :=
  match ds.getStr a, ds.getStr b with
  | some sa, some sb => some (compare sa sb)
  | _, _ => none

/-- Total comparison on `Int` (Rust `i128::partial_cmp`, always `Some`). -/
def cmpInt (a b : Int) : Ordering :=
  if a < b then .lt else if b < a then .gt else .eq

/-- Total comparison on the decimal model (Rust `Decimal::partial_cmp`,
always `Some`). -/
def cmpQ (a b : ℚ) : Ordering :=
  if a < b then .lt else if b < a then .gt else .eq

/-- `Decimal::from_i128` (named `from_i128_with_scale`/`from_i128` in
rust_decimal): succeeds only when the magnitude fits the 96-bit mantissa. -/
def decFromInt (v : Int) : Option ℚ :=
  if v.natAbs < 2 ^ 96 then some (v : ℚ) else none

/-- `SimpleEvaluator::partial_cmp_literals` (eval.rs:873), restricted to the
modelled variants: string-typed literals compare through the dictionary,
integer/decimal compare numerically, everything else is incomparable. -/
def cmpLiteralsByValue (ds : Dataset) (a b : EncodedTerm) : Option Ordering :=
  match a with
  | .SimpleLiteral av =>
    match b with
    | .SimpleLiteral bv => compareStrIds ds av bv
    | .StringLiteral bv => compareStrIds ds av bv
    | _ => none
  | .StringLiteral av =>
    match b with
    | .SimpleLiteral bv => compareStrIds ds av bv
    | .StringLiteral bv => compareStrIds ds av bv
    | _ => none
  | .IntegerLiteral av =>
    match b with
    | .IntegerLiteral bv => some (cmpInt av bv)
    | .DecimalLiteral bv => (decFromInt av).map (fun aq => cmpQ aq bv)
    | _ => none
  | .DecimalLiteral av =>
    match b with
    | .IntegerLiteral bv => (decFromInt bv).map (fun bq => cmpQ av bq)
    | .DecimalLiteral bv => some (cmpQ av bv)
    | _ => none
  | _ => none

/-- `SimpleEvaluator::equals` (eval.rs:829): byte equality or value
comparison equal. Always returns a boolean, never an error. -/
def equals (ds : Dataset) (a b : EncodedTerm) : Bool :=
  decide (a = b) || decide (cmpLiteralsByValue ds a b = some Ordering.eq)

/-- `SimpleEvaluator::not_equals` (eval.rs:833). -/
def notEquals (ds : Dataset) (a b : EncodedTerm) : Bool :=
  decide (a ≠ b) && decide (cmpLiteralsByValue ds a b ≠ some Ordering.eq)

/-- `NumericBinaryOperands` (eval.rs:922), float/double families omitted. -/
inductive NumericBinaryOperands where
  | Integer (a b : Int) : NumericBinaryOperands
  | Decimal (a b : ℚ) : NumericBinaryOperands
  deriving DecidableEq, Repr

/-- The pure pair dispatch of `parse_numeric_operands` (eval.rs:744) after
both operands have been evaluated: `Integer⊕Integer → Integer`,
`Integer⊕Decimal → Decimal` (through `Decimal::from_i128(..)?`), etc. -/
def parseNumericValues (t1 t2 : EncodedTerm) : Option NumericBinaryOperands :=
  match t1, t2 with
  | .IntegerLiteral v1, .IntegerLiteral v2 => some (.Integer v1 v2)
  | .IntegerLiteral v1, .DecimalLiteral v2 => (decFromInt v1).map (fun q => .Decimal q v2)
  | .DecimalLiteral v1, .IntegerLiteral v2 => (decFromInt v2).map (fun q => .Decimal v1 q)
  | .DecimalLiteral v1, .DecimalLiteral v2 => some (.Decimal v1 v2)
  | _, _ => none

/-- `SimpleEvaluator::eval_expression` (eval.rs:322), on the modelled subset.
Result: `Except.error ()` models a Rust panic, `Except.ok none` the SPARQL
type error (the source's `Option::None`), `Except.ok (some t)` a value.
The state carries the blank-node map and the fresh-blank-node counter.
In `Div`, `parse_numeric_operands` is inlined (the two operand evaluations
followed by `parseNumericValues`); Rust `/` on `i128` and on `Decimal`
panics when the divisor is zero, hence the explicit zero checks; integer
division truncates toward zero (`Int.tdiv`). -/
def evalExpression (ds : Dataset) :
    PlanExpression → EncodedTuple → EvalState → EvalState × Except Unit (Option EncodedTerm)
  | .Constant t, _, st => (st, .ok (some t))
  | .Variable v, tuple, st => (st, .ok (getTupleValue v tuple))
  | .Or a b, tuple, st =>
    match evalExpression ds a tuple st with
    | (st1, .error e) => (st1, .error e)
    | (st1, .ok none) => (st1, .ok none)
    | (st1, .ok (some ta)) =>
      match toBool ta with
      | some true => (st1, .ok (some (.BooleanLiteral true)))
      | some false => evalExpression ds b tuple st1
      | none =>
        match evalExpression ds b tuple st1 with
        | (st2, .error e) => (st2, .error e)
        | (st2, .ok none) => (st2, .ok none)
        | (st2, .ok (some tb)) =>
          match toBool tb with
          | some true => (st2, .ok (some (.BooleanLiteral true)))
          | _ => (st2, .ok none)
  | .And a b, tuple, st =>
    match evalExpression ds a tuple st with
    | (st1, .error e) => (st1, .error e)
    | (st1, .ok none) => (st1, .ok none)
    | (st1, .ok (some ta)) =>
      match toBool ta with
      | some true => evalExpression ds b tuple st1
      | some false => (st1, .ok (some (.BooleanLiteral false)))
      | none =>
        match evalExpression ds b tuple st1 with
        | (st2, .error e) => (st2, .error e)
        | (st2, .ok none) => (st2, .ok none)
        | (st2, .ok (some tb)) =>
          match toBool tb with
          | some false => (st2, .ok (some (.BooleanLiteral false)))
          | _ => (st2, .ok none)
  | .Equal a b, tuple, st =>
    match evalExpression ds a tuple st with
    | (st1, .error e) => (st1, .error e)
    | (st1, .ok none) => (st1, .ok none)
    | (st1, .ok (some ta)) =>
      match evalExpression ds b tuple st1 with
      | (st2, .error e) => (st2, .error e)
      | (st2, .ok none) => (st2, .ok none)
      | (st2, .ok (some tb)) => (st2, .ok (some (.BooleanLiteral (equals ds ta tb))))
  | .NotEqual a b, tuple, st =>
    match evalExpression ds a tuple st with
    | (st1, .error e) => (st1, .error e)
    | (st1, .ok none) => (st1, .ok none)
    | (st1, .ok (some ta)) =>
      match evalExpression ds b tuple st1 with
      | (st2, .error e) => (st2, .error e)
      | (st2, .ok none) => (st2, .ok none)
      | (st2, .ok (some tb)) => (st2, .ok (some (.BooleanLiteral (notEquals ds ta tb))))
  | .SameTerm a b, tuple, st =>
    match evalExpression ds a tuple st with
    | (st1, .error e) => (st1, .error e)
    | (st1, .ok none) => (st1, .ok none)
    | (st1, .ok (some ta)) =>
      match evalExpression ds b tuple st1 with
      | (st2, .error e) => (st2, .error e)
      | (st2, .ok none) => (st2, .ok none)
      | (st2, .ok (some tb)) => (st2, .ok (some (.BooleanLiteral (decide (ta = tb)))))
  | .Div a b, tuple, st =>
    match evalExpression ds a tuple st with
    | (st1, .error e) => (st1, .error e)
    | (st1, .ok none) => (st1, .ok none)
    | (st1, .ok (some ta)) =>
      match evalExpression ds b tuple st1 with
      | (st2, .error e) => (st2, .error e)
      | (st2, .ok none) => (st2, .ok none)
      | (st2, .ok (some tb)) =>
        match parseNumericValues ta tb with
        | none => (st2, .ok none)
        | some (.Integer v1 v2) =>
          if v2 = 0 then (st2, .error ())
          else (st2, .ok (some (.IntegerLiteral (Int.tdiv v1 v2))))
        | some (.Decimal v1 v2) =>
          if v2 = 0 then (st2, .error ())
          else (st2, .ok (some (.DecimalLiteral (v1 / v2))))
  | .UnaryNot e, tuple, st =>
    match evalExpression ds e tuple st with
    | (st1, .error er) => (st1, .error er)
    | (st1, .ok none) => (st1, .ok none)
    | (st1, .ok (some t)) =>
      match toBool t with
      | some v => (st1, .ok (some (.BooleanLiteral (!v))))
      | none => (st1, .ok none)
  | .Bound v, tuple, st => (st, .ok (some (.BooleanLiteral (hasTupleValue v tuple))))
  | .BNode (some idExpr), tuple, st =>
    match evalExpression ds idExpr tuple st with
    | (st1, .error e) => (st1, .error e)
    | (st1, .ok none) => (st1, .ok none)
    | (st1, .ok (some t)) =>
      match t with
      | .SimpleLiteral value_id =>
        match mapFind value_id st1.bnodesMap with
        | some b => (st1, .ok (some (.BlankNode b)))
        | none =>
          (⟨(value_id, st1.nextBnode) :: st1.bnodesMap, st1.nextBnode + 1⟩,
            .ok (some (.BlankNode st1.nextBnode)))
      | .StringLiteral value_id =>
        match mapFind value_id st1.bnodesMap with
        | some b => (st1, .ok (some (.BlankNode b)))
        | none =>
          (⟨(value_id, st1.nextBnode) :: st1.bnodesMap, st1.nextBnode + 1⟩,
            .ok (some (.BlankNode st1.nextBnode)))
      | _ => (st1, .ok none)
  | .BNode none, _, st =>
    (⟨st.bnodesMap, st.nextBnode + 1⟩, .ok (some (.BlankNode st.nextBnode)))

/-- Items of the tuple streams: `Result<EncodedTuple>` with infrastructural
errors (store or dictionary I/O) carried in-stream; the error payload is
opaque, modelled as `Nat`. -/
abbrev TupleResult := Except Nat EncodedTuple

/-- The index-by-index unification loop shared by the two branches of
`combine_tuples` (eval.rs:988): `small` is the shorter tuple being folded
into `base`; a slot bound in both with unequal values fails. The source
indexes `base[key]` for `key < small.len() ≤ base.len()`, so the
length-mismatch case `(small nonempty, base empty)` is unreachable there
and modelled as `none`. -/
def mergeTuples : EncodedTuple → EncodedTuple → Option EncodedTuple
  | [], base => some base
  | none :: os, bv :: bs => (mergeTuples os bs).map (fun r => bv :: r)
  | some ov :: os, bv :: bs =>
    match bv with
    | some b => if ov = b then (mergeTuples os bs).map (fun r => bv :: r) else none
    | none => (mergeTuples os bs).map (fun r => some ov :: r)
  | _ :: _, [] => none

/-- `combine_tuples(a, b)` (eval.rs:988): result slot count equals the
longer tuple; fails on a conflicting bound slot. -/
def combineTuples (a b : EncodedTuple) : Option EncodedTuple :=
  if a.length < b.length then mergeTuples a b else mergeTuples b a

/-- The row transformation of `PlanNode::Project` (eval.rs:309): slot `i` of
the output is `tuple[mapping[i]]` by direct `Vec` indexing, which panics
(modelled `Except.error ()`) when the index is at or past the row's end;
it does not go through `get_tuple_value`. -/
def projectRow (mapping : List Nat) (tuple : EncodedTuple) : Except Unit EncodedTuple :=
  match mapping with
  | [] => .ok []
  | k :: ks =>
    if h : k < tuple.length then (projectRow ks tuple).map (fun r => tuple.get ⟨k, h⟩ :: r)
    else .error ()

/-- `TripleTemplateValue` (from `sparql::plan`, outside `src/`; the three
variants are those used by `get_triple_template_value`). -/
inductive TripleTemplateValue where
  | Constant (t : EncodedTerm) : TripleTemplateValue
  | Variable (v : Nat) : TripleTemplateValue
  | BlankNode (id : Nat) : TripleTemplateValue
  deriving DecidableEq, Repr

/-- `TripleTemplate` with subject/predicate/object positions. -/
structure TripleTemplate where
  subject : TripleTemplateValue
  predicate : TripleTemplateValue
  object : TripleTemplateValue
  deriving DecidableEq, Repr

/-- `get_triple_template_value` (eval.rs:1208). The `BlankNode id` branch of
the source runs `while id >= tuple.len() { bnodes.push(BlankNode::default()) }`
and then returns `tuple[id]`: the guard and the final read use `tuple`, not
`bnodes`, so when `id < tuple.len()` the loop body never runs (`bnodes` is
returned unchanged) and the row's slot `id` is returned; when
`id ≥ tuple.len()` the guard never becomes false and the loop never
terminates, modelled as `Except.error ()`. -/
def getTripleTemplateValue (selector : TripleTemplateValue) (tuple : EncodedTuple)
    (bnodes : List Nat) : Except Unit (Option EncodedTerm × List Nat) :=
  match selector with
  | .Constant t => .ok (some t, bnodes)
  | .Variable v => .ok (getTupleValue v tuple, bnodes)
  | .BlankNode id =>
    if h : id < tuple.length then .ok (tuple.get ⟨id, h⟩, bnodes) else .error ()

/-- The per-row template loop of `ConstructIterator::next` (eval.rs:1189):
each template's three positions are resolved (all three calls happen before
the tuple pattern is matched); a fully resolved template is pushed onto
`buffered_results`; if any position is unbound the buffer is cleared and the
loop breaks (`//No match, we do not output any triple for this row`).
`acc` is the buffer with the `Vec` end at the list head, which is also the
order the buffered triples are popped and emitted. -/
def constructRowAux : List TripleTemplate → EncodedTuple → List Nat →
    List (EncodedTerm × EncodedTerm × EncodedTerm) →
    Except Unit (List (EncodedTerm × EncodedTerm × EncodedTerm))
  | [], _, _, acc => .ok acc
  | tm :: ts, tuple, bnodes, acc =>
    match getTripleTemplateValue tm.subject tuple bnodes with
    | .error e => .error e
    | .ok (sv, b1) =>
      match getTripleTemplateValue tm.predicate tuple b1 with
      | .error e => .error e
      | .ok (pv, b2) =>
        match getTripleTemplateValue tm.object tuple b2 with
        | .error e => .error e
        | .ok (ov, b3) =>
          match sv, pv, ov with
          | some s, some p, some o => constructRowAux ts tuple b3 ((s, p, o) :: acc)
          | _, _, _ => .ok []

/-- The triples a single bound row contributes in CONSTRUCT evaluation, in
emission order (the buffer is popped from its end, so emission is in
reverse template order); `bnodes` starts empty for the row. Decoding the
encoded triples to concrete terms (`decode_triple`) is not modelled. -/
def constructRow (templates : List TripleTemplate) (tuple : EncodedTuple) :
    Except Unit (List (EncodedTerm × EncodedTerm × EncodedTerm)) :=
  constructRowAux templates tuple [] []

/-- The drain phase of `UnionIterator::next` (eval.rs:1126): `current_iters`
is a `Vec` used as a stack (the list head models the `Vec` end, the next
iterator popped); each popped iterator is drained one item at a time, being
pushed back after each item, until exhausted; then the next one is popped.
`tail` is what the union iterator produces after the stack is empty. -/
def unionDrain : List (List TupleResult) → List TupleResult → List TupleResult
  | [], tail => tail
  | [] :: stack, tail => unionDrain stack tail
  | (r :: rs) :: stack, tail => r :: unionDrain (rs :: stack) tail
termination_by stack _ => (stack.map List.length).sum + stack.length

/-- `UnionIterator` (eval.rs:1123) with the children plans abstracted to
their denotations `EncodedTuple → List TupleResult` (the output of
`eval.eval_plan(plan, input_tuple)`): each input error passes through; each
input tuple seeds every child, the child iterators are pushed in list order
onto the stack and then drained from the top (so in reverse list order)
before the next input item is drawn. -/
def unionRun (children : List (EncodedTuple → List TupleResult)) :
    List TupleResult → List TupleResult
  | [] => []
  | .error e :: rest => .error e :: unionRun children rest
  | .ok t :: rest =>
    unionDrain ((children.map (fun c => c t)).reverse) (unionRun children rest)

/-- `JoinIterator::next` (eval.rs:1031): `buffer` models `buffered_results`
with the `Vec` end at the list head (the next item popped). When the buffer
is empty, the next right item is drawn: a right error is emitted; a right
tuple is combined with every materialized left tuple in order, the
successful combinations pushed (hence buffered in reverse left order) and
then popped one by one. -/
def joinStep (left : List EncodedTuple) :
    List TupleResult → List TupleResult → List TupleResult
  | r :: buffer, rights => r :: joinStep left buffer rights
  | [], [] => []
  | [], .error e :: rs => .error e :: joinStep left [] rs
  | [], .ok rt :: rs =>
    joinStep left (((left.filterMap (fun lt => combineTuples lt rt)).map Except.ok).reverse) rs
termination_by buffer rights => (rights.length, buffer.length)

/-- The tuples of the `Ok` items of a stream, in order (the `left_values`
accumulation of `PlanNode::Join`, eval.rs:188, and the `values`
accumulation of `PlanNode::Sort`, eval.rs:269). -/
def okParts (l : List TupleResult) : List EncodedTuple :=
  l.filterMap (fun r => match r with | .ok t => some t | .error _ => none)

/-- The payloads of the `Err` items of a stream, in order (the `errors`
accumulation of `PlanNode::Join` and `PlanNode::Sort`). -/
def errParts (l : List TupleResult) : List Nat :=
  l.filterMap (fun r => match r with | .error e => some e | .ok _ => none)

/-- `PlanNode::Join` (eval.rs:183): the left side is materialized, its
errors seed `buffered_results` (popped from the `Vec` end, list head), and
the joining proceeds right item by right item. -/
def joinNode (leftResults rights : List TupleResult) : List TupleResult :=
  joinStep (okParts leftResults) (((errParts leftResults).map Except.error).reverse) rights

/-- Insertion step for the sort model: insert `x` into a list, moving past
elements that compare `Greater` than... i.e. past `y` while `cmp x y = gt`. -/
def insertBy (cmp : EncodedTuple → EncodedTuple → Ordering) (x : EncodedTuple) :
    List EncodedTuple → List EncodedTuple
  | [] => [x]
  | y :: ys =>
    match cmp x y with
    | .gt => y :: insertBy cmp x ys
    | _ => x :: y :: ys

/-- Sorting by a comparator. The source uses `Vec::sort_unstable_by`
(eval.rs:277) with the comparator folded from the `by` list via
`cmp_according_to_expression`; the model is an insertion sort by an
abstract comparator — the claims constrain only that the successful rows
come out as a sorted permutation, after the errors. -/
def sortBy (cmp : EncodedTuple → EncodedTuple → Ordering) :
    List EncodedTuple → List EncodedTuple
  | [] => []
  | x :: xs => insertBy cmp x (sortBy cmp xs)

/-- The materialization loop of `PlanNode::Sort` (eval.rs:269): one pass
over the child stream collecting the tuples of `Ok` items and the `Err`
items, each in input order. -/
def sortCollect : List TupleResult → List EncodedTuple × List TupleResult
  | [] => ([], [])
  | .ok t :: rest =>
    let p := sortCollect rest
    (t :: p.1, p.2)
  | .error e :: rest =>
    let p := sortCollect rest
    (p.1, .error e :: p.2)

/-- `PlanNode::Sort` (eval.rs:265): collect, sort the values, then emit
`errors.into_iter().chain(values.into_iter().map(Ok))`. -/
def sortNode (cmp : EncodedTuple → EncodedTuple → Ordering)
    (input : List TupleResult) : List TupleResult :=
  let p := sortCollect input
  p.2 ++ (sortBy cmp p.1).map Except.ok

/-- `LeftJoinIterator::next` (eval.rs:1058) with the right plan abstracted
to its denotation `rightEval` (the output of
`eval.eval_plan(right_plan, left_tuple)`): left errors pass through; for a
left tuple, if the right iterator's first `next()` yields an item (tuple or
error) the whole right stream is emitted, otherwise the left tuple itself
is emitted as the OPTIONAL fallback. -/
def leftJoinRun (rightEval : EncodedTuple → List TupleResult) :
    List TupleResult → List TupleResult
  | [] => []
  | .error e :: ls => .error e :: leftJoinRun rightEval ls
  | .ok lt :: ls =>
    match rightEval lt with
    | [] => .ok lt :: leftJoinRun rightEval ls
    | r :: rs => r :: rs ++ leftJoinRun rightEval ls

/-- Whether resolving one template position terminates without a panic
(the divergent `BlankNode` loop of `get_triple_template_value` is the only
non-`ok` outcome). -/
def tvOk (tv : TripleTemplateValue) (tuple : EncodedTuple) : Bool :=
  match getTripleTemplateValue tv tuple [] with
  | .ok _ => true
  | .error _ => false

/-- Whether one template position resolves to unbound for the row. -/
def tvMissing (tv : TripleTemplateValue) (tuple : EncodedTuple) : Bool :=
  match getTripleTemplateValue tv tuple [] with
  | .ok (none, _) => true
  | _ => false

/-- Whether all three positions of a template resolve without a panic. -/
def templOk (tm : TripleTemplate) (tuple : EncodedTuple) : Bool :=
  tvOk tm.subject tuple && tvOk tm.predicate tuple && tvOk tm.object tuple

/-- Whether some position of a template resolves to unbound for the row. -/
def templMissing (tm : TripleTemplate) (tuple : EncodedTuple) : Bool :=
  tvMissing tm.subject tuple || tvMissing tm.predicate tuple || tvMissing tm.object tuple

/-- A dataset with an empty dictionary, for concrete instances. -/
def ds0 : Dataset := ⟨fun _ => none⟩

/-- The evaluation state at the start of a query: empty blank-node map. -/
def st0 : EvalState := ⟨[], 0⟩

/-- `BNODE("…")` with a fixed lexical form (dictionary id 5). -/
def bnodeOf5 : PlanExpression := .BNode (some (.Constant (.SimpleLiteral 5)))

/-- A template whose three positions are constants (always instantiable). -/
def tmplConst : TripleTemplate :=
  ⟨.Constant (.NamedNode 1), .Constant (.NamedNode 2), .Constant (.NamedNode 3)⟩

/-- A template whose subject is variable slot 0 (unbound in the empty row). -/
def tmplVar : TripleTemplate :=
  ⟨.Variable 0, .Constant (.NamedNode 2), .Constant (.NamedNode 3)⟩

/-- A union child whose denotation yields one row tagged 1. -/
def childOne : EncodedTuple → List TupleResult :=
  fun _ => [Except.ok [some (.IntegerLiteral 1)]]

/-- A union child whose denotation yields one row tagged 2. -/
def childTwo : EncodedTuple → List TupleResult :=
  fun _ => [Except.ok [some (.IntegerLiteral 2)]]

/-- A right-plan denotation whose first item is an infrastructural error. -/
def rightErrFirst : EncodedTuple → List TupleResult := fun _ => [Except.error 7]

/-- Draining the union stack emits the stacked streams top first, one
stream at a time, each in its own order, and then the tail. -/
theorem unionDrain_eq (stack : List (List TupleResult)) (tail : List TupleResult) :
    unionDrain stack tail = stack.flatten ++ tail := by
  induction stack, tail using unionDrain.induct with
  | case1 tail => simp [unionDrain]
  | case2 stack tail ih => simp [unionDrain, ih]
  | case3 r rs stack tail ih => simp [unionDrain, ih]

/-- The join iterator drains its whole buffer before drawing from the
right-hand stream. -/
theorem joinStep_drain (left : List EncodedTuple) (buffer rights : List TupleResult) :
    joinStep left buffer rights = buffer ++ joinStep left [] rights := by
  induction buffer with
  | nil => rfl
  | cons r buffer ih => simp [joinStep, ih]

/-- The materialization pass of Sort collects exactly the tuples of the
`Ok` items and the `Err` items, each in input order. -/
theorem sortCollect_eq (input : List TupleResult) :
    sortCollect input = (okParts input, (errParts input).map Except.error) := by
  induction input with
  | nil => rfl
  | cons r rest ih =>
    cases r with
    | ok t => simp [sortCollect, okParts, errParts, ih]
    | error e => simp [sortCollect, okParts, errParts, ih]

/-- Inserting into the sort model produces a permutation of consing. -/
theorem insertBy_perm (cmp : EncodedTuple → EncodedTuple → Ordering)
    (x : EncodedTuple) (l : List EncodedTuple) :
    List.Perm (insertBy cmp x l) (x :: l) := by
  induction l with
  | nil => simp [insertBy]
  | cons y ys ih =>
    simp only [insertBy]
    cases cmp x y with
    | gt => exact ((ih.cons y).trans (List.Perm.swap x y ys))
    | lt => simp
    | eq => simp

/-- The sort model permutes its input. -/
theorem sortBy_perm (cmp : EncodedTuple → EncodedTuple → Ordering)
    (l : List EncodedTuple) : List.Perm (sortBy cmp l) l := by
  induction l with
  | nil => simp [sortBy]
  | cons x xs ih => exact (insertBy_perm cmp x (sortBy cmp xs)).trans (ih.cons x)

/-- On its terminating paths `get_triple_template_value` returns its
`bnodes` argument unchanged (the loop body only runs on the divergent
path). -/
theorem gttv_ok_snd (tv : TripleTemplateValue) (tuple : EncodedTuple) (b : List Nat)
    (p : Option EncodedTerm × List Nat) (h : getTripleTemplateValue tv tuple b = .ok p) :
    p.2 = b := by
  cases tv <;> simp [getTripleTemplateValue] at h <;> (try split at h) <;>
    first
    | (cases h; rfl)
    | simp_all

/-- The resolved value of a template position does not depend on the
`bnodes` accumulator. -/
theorem gttv_any (tv : TripleTemplateValue) (tuple : EncodedTuple) (b : List Nat)
    (v : Option EncodedTerm) (h : getTripleTemplateValue tv tuple [] = .ok (v, [])) :
    getTripleTemplateValue tv tuple b = .ok (v, b) := by
  cases tv <;> simp [getTripleTemplateValue] at h ⊢ <;> (try split at h) <;>
    first
    | (cases h; rfl)
    | simp_all

/-- If every template of a row resolves without the divergent loop and some
template has an unbound position, the whole row's buffer ends up cleared,
whatever was already accumulated. -/
theorem constructRowAux_skips (tuple : EncodedTuple) :
    ∀ (ts : List TripleTemplate) (b : List Nat)
      (acc : List (EncodedTerm × EncodedTerm × EncodedTerm)),
      (∀ tm ∈ ts, templOk tm tuple = true) →
      (∃ tm ∈ ts, templMissing tm tuple = true) →
      constructRowAux ts tuple b acc = .ok [] := by
  intro ts
  induction ts with
  | nil => intro b acc _ hex; simp at hex
  | cons tm rest ih =>
    intro b acc hok hex
    have hoktm : templOk tm tuple = true := hok tm (by simp)
    simp only [templOk, Bool.and_eq_true] at hoktm
    obtain ⟨⟨hs, hp⟩, ho⟩ := hoktm
    rcases hsv : getTripleTemplateValue tm.subject tuple [] with e | ps
    · simp [tvOk, hsv] at hs
    rcases hpv : getTripleTemplateValue tm.predicate tuple [] with e | pp
    · simp [tvOk, hpv] at hp
    rcases hov : getTripleTemplateValue tm.object tuple [] with e | po
    · simp [tvOk, hov] at ho
    obtain ⟨sv, bs⟩ := ps
    obtain ⟨pv, bp⟩ := pp
    obtain ⟨ov, bo⟩ := po
    have hbs : bs = [] := gttv_ok_snd _ _ _ _ hsv
    have hbp : bp = [] := gttv_ok_snd _ _ _ _ hpv
    have hbo : bo = [] := gttv_ok_snd _ _ _ _ hov
    subst hbs hbp hbo
    have hsb := gttv_any tm.subject tuple b sv hsv
    have hpb := gttv_any tm.predicate tuple b pv hpv
    have hob := gttv_any tm.object tuple b ov hov
    simp only [constructRowAux, hsb, hpb, hob]
    match hsv2 : sv, hpv2 : pv, hov2 : ov with
    | none, _, _ => simp
    | some s, none, _ => simp
    | some s, some p, none => simp
    | some s, some p, some o =>
      apply ih b ((s, p, o) :: acc) (fun tm2 h2 => hok tm2 (by simp [h2]))
      rcases hex with ⟨tm2, htm2, hmiss⟩
      rcases List.mem_cons.mp htm2 with rfl | hrest
      · exfalso
        simp only [templMissing, Bool.or_eq_true, tvMissing] at hmiss
        rw [hsv, hpv, hov] at hmiss
        simp at hmiss
      · exact ⟨tm2, hrest, hmiss⟩

/-- Claim C1, counterexample: a row in which the first template resolves
fully and the second has an unbound subject emits no triple at all — the
first template's triple, which the list `[tmplConst]` alone would emit, is
discarded, contradicting the claim that only the failing template is
skipped. -/
theorem construct_other_templates_not_emitted_cx :
    constructRow [tmplConst, tmplVar] [] = .ok []
    ∧ constructRow [tmplConst] [] = .ok [(.NamedNode 1, .NamedNode 2, .NamedNode 3)]
    ∧ templMissing tmplVar [] = true
    ∧ templOk tmplConst [] = true := by
  decide

/-- Claim C1, amended: in CONSTRUCT evaluation, if any of a template's
subject/predicate/object positions resolves to unbound for a row, the
whole row is skipped: the buffered triples of the row's other templates
are cleared and the remaining templates are not attempted, so the row
contributes no triples. -/
theorem construct_unbound_skips_whole_row (ts : List TripleTemplate) (tuple : EncodedTuple)
    (hok : ∀ tm ∈ ts, templOk tm tuple = true)
    (hmiss : ∃ tm ∈ ts, templMissing tm tuple = true) :
    constructRow ts tuple = .ok [] :=
  constructRowAux_skips tuple ts [] [] hok hmiss

/-- Claim C1, witness: the amended theorem at a concrete row. -/
theorem construct_unbound_skips_whole_row_w :
    constructRow [tmplVar, tmplConst] [] = .ok [] :=
  construct_unbound_skips_whole_row [tmplVar, tmplConst] [] (by decide) (by decide)

/-- Claim C2, counterexample: with children `[childOne, childTwo]` and one
seed, the union iterator emits childTwo's row before childOne's — the
children are drained from the top of the stack, i.e. in reverse list
order, contradicting the claimed `c1` then `c2` order. -/
theorem union_order_cx :
    unionRun [childOne, childTwo] [Except.ok []] =
      [Except.ok [some (.IntegerLiteral 2)], Except.ok [some (.IntegerLiteral 1)]]
    ∧ unionRun [childOne, childTwo] [Except.ok []] ≠
      [Except.ok [some (.IntegerLiteral 1)], Except.ok [some (.IntegerLiteral 2)]] := by
  constructor
  · simp [unionRun, unionDrain, childOne, childTwo]
  · simp [unionRun, unionDrain, childOne, childTwo]

/-- Claim C2, amended: for every Union node and every input tuple drawn
from its entry, the iterator emits the children's outputs for that seed in
reverse list order — all rows of `cn` in `cn`'s order, then `c(n-1)`, and
so on down to `c1` — before drawing the next input tuple. -/
theorem union_children_reverse_order (children : List (EncodedTuple → List TupleResult))
    (t : EncodedTuple) (rest : List TupleResult) :
    unionRun children (.ok t :: rest) =
      ((children.map (fun c => c t)).reverse).flatten ++ unionRun children rest := by
  simp [unionRun, unionDrain_eq]

/-- Claim C3, counterexample: two distinct named nodes are not byte-equal
and not comparable by value, yet `Equal` yields the boolean `false`, not
the undefined result claimed. -/
theorem equal_incomparable_cx :
    evalExpression ds0 (.Equal (.Constant (.NamedNode 1)) (.Constant (.NamedNode 2))) [] st0 =
      (st0, .ok (some (.BooleanLiteral false)))
    ∧ cmpLiteralsByValue ds0 (.NamedNode 1) (.NamedNode 2) = none
    ∧ EncodedTerm.NamedNode 1 ≠ EncodedTerm.NamedNode 2 := by
  decide

/-- Claim C3, amended: for all defined operand terms, `Equal` always yields
a boolean — true iff the terms are byte-identical or their value
comparison is `Equal`; when they are not byte-identical and not comparable
by value the result is the boolean false, never the undefined result. -/
theorem equal_total_boolean (ds : Dataset) (ea eb : PlanExpression) (tuple : EncodedTuple)
    (st st1 st2 : EvalState) (ta tb : EncodedTerm)
    (ha : evalExpression ds ea tuple st = (st1, .ok (some ta)))
    (hb : evalExpression ds eb tuple st1 = (st2, .ok (some tb))) :
    evalExpression ds (.Equal ea eb) tuple st =
      (st2, .ok (some (.BooleanLiteral (equals ds ta tb))))
    ∧ (cmpLiteralsByValue ds ta tb = none → ta ≠ tb → equals ds ta tb = false) := by
  constructor
  · simp only [evalExpression, ha, hb]
  · intro h1 h2
    simp [equals, h1, h2]

/-- Claim C3, witness: the amended theorem at two distinct named nodes. -/
theorem equal_total_boolean_w :
    evalExpression ds0 (.Equal (.Constant (.NamedNode 3)) (.Constant (.NamedNode 4))) [] st0 =
      (st0, .ok (some (.BooleanLiteral false))) := by
  have h := equal_total_boolean ds0 (.Constant (.NamedNode 3)) (.Constant (.NamedNode 4))
    [] st0 st0 st0 (.NamedNode 3) (.NamedNode 4) rfl rfl
  rw [h.1, h.2 (by decide) (by decide)]

/-- Claim C4, counterexample: `BNode` with the same lexical form (id 5) in
two different rows yields the same blank node both times — the blank-node
map lives in the evaluator and is never reset between rows, contradicting
the claim that different rows get different blank nodes. -/
theorem bnode_across_rows_cx :
    (evalExpression ds0 bnodeOf5 [] st0).2 = .ok (some (.BlankNode 0))
    ∧ (evalExpression ds0 bnodeOf5 [some (.NamedNode 1)]
        (evalExpression ds0 bnodeOf5 [] st0).1).2 = .ok (some (.BlankNode 0))
    ∧ ([] : EncodedTuple) ≠ [some (.NamedNode 1)] := by
  decide

/-- Claim C4, amended: within a single query evaluation, two invocations of
`BNode(e)` whose argument evaluates to the same string lexical form yield
the same blank node, whether the invocations happen in the same row or in
different rows: the blank-node map persists for the whole evaluation. -/
theorem bnode_same_lexical_same_blank (ds : Dataset) (vid : Nat)
    (t1 t2 : EncodedTuple) (st : EvalState) :
    ((evalExpression ds (.BNode (some (.Constant (.SimpleLiteral vid)))) t2
        (evalExpression ds (.BNode (some (.Constant (.SimpleLiteral vid)))) t1 st).1).2
      = (evalExpression ds (.BNode (some (.Constant (.SimpleLiteral vid)))) t1 st).2)
    ∧ ∃ bn, (evalExpression ds (.BNode (some (.Constant (.SimpleLiteral vid)))) t1 st).2
        = .ok (some (.BlankNode bn)) := by
  simp only [evalExpression]
  cases h : mapFind vid st.bnodesMap with
  | some bn => simp [h]
  | none => simp [h, mapFind]

/-- Claim C5: the `BlankNode(template_index)` branch of
`get_triple_template_value` guards and indexes `tuple` instead of `bnodes`:
at the failing input (template position `BlankNode(0)`, row
`[Some(NamedNode 7)]`) it returns the row's slot-0 binding — a named node,
not a freshly generated blank node — and a full CONSTRUCT row emits that
term in subject position; with `BlankNode(0)` against an empty row the
while loop never terminates (modelled `Except.error ()`). -/
theorem construct_bnode_template_bug :
    getTripleTemplateValue (.BlankNode 0) [some (.NamedNode 7)] [] =
      .ok (some (.NamedNode 7), [])
    ∧ constructRow [⟨.BlankNode 0, .Constant (.NamedNode 2), .Constant (.NamedNode 3)⟩]
        [some (.NamedNode 7)] = .ok [(.NamedNode 7, .NamedNode 2, .NamedNode 3)]
    ∧ getTripleTemplateValue (.BlankNode 0) [] [] = .error () := by
  decide

/-- Claim C6, counterexample: when the first operand's evaluation itself is
undefined (unbound variable), `Or` propagates the undefined result through
the early-return and never consults the second operand — even when it is
the boolean true — contradicting the claim's parenthetical. -/
theorem or_undefined_first_operand_cx :
    evalExpression ds0 (.Or (.Variable 0) (.Constant (.BooleanLiteral true))) [] st0 =
      (st0, .ok none)
    ∧ getTupleValue 0 [] = none
    ∧ (Except.ok (none : Option EncodedTerm) : Except Unit (Option EncodedTerm)) ≠
        .ok (some (.BooleanLiteral true)) := by
  decide

/-- Claim C6, amended: `Or(a, b)` yields true when `a` evaluates to a term
whose effective boolean value is true; the result of evaluating `b` (its
value, not its effective boolean value) when `a`'s effective boolean value
is false; the undefined result when `a`'s own evaluation is undefined
(`b` is not consulted); and, when `a` evaluates to a term with no
effective boolean value, true if `b` evaluates to a term whose effective
boolean value is true and the undefined result otherwise. -/
theorem or_three_valued (ds : Dataset) (a b : PlanExpression) (tuple : EncodedTuple)
    (st st1 st2 : EvalState) (ta tb : EncodedTerm) :
    (evalExpression ds a tuple st = (st1, .ok (some ta)) → toBool ta = some true →
      evalExpression ds (.Or a b) tuple st = (st1, .ok (some (.BooleanLiteral true))))
    ∧ (evalExpression ds a tuple st = (st1, .ok (some ta)) → toBool ta = some false →
      evalExpression ds (.Or a b) tuple st = evalExpression ds b tuple st1)
    ∧ (evalExpression ds a tuple st = (st1, .ok none) →
      evalExpression ds (.Or a b) tuple st = (st1, .ok none))
    ∧ (evalExpression ds a tuple st = (st1, .ok (some ta)) → toBool ta = none →
      evalExpression ds b tuple st1 = (st2, .ok (some tb)) → toBool tb = some true →
      evalExpression ds (.Or a b) tuple st = (st2, .ok (some (.BooleanLiteral true))))
    ∧ (evalExpression ds a tuple st = (st1, .ok (some ta)) → toBool ta = none →
      evalExpression ds b tuple st1 = (st2, .ok none) →
      evalExpression ds (.Or a b) tuple st = (st2, .ok none))
    ∧ (evalExpression ds a tuple st = (st1, .ok (some ta)) → toBool ta = none →
      evalExpression ds b tuple st1 = (st2, .ok (some tb)) → toBool tb = some false →
      evalExpression ds (.Or a b) tuple st = (st2, .ok none)) := by
  refine ⟨?_, ?_, ?_, ?_, ?_, ?_⟩
  · intro ha hta; simp only [evalExpression, ha, hta]
  · intro ha hta; simp only [evalExpression, ha, hta]
  · intro ha; simp only [evalExpression, ha]
  · intro ha hta hb htb; simp only [evalExpression, ha, hta, hb, htb]
  · intro ha hta hb; simp only [evalExpression, ha, hta, hb]
  · intro ha hta hb htb; simp only [evalExpression, ha, hta, hb, htb]

/-- Claim C6, witness: the error-then-true case at concrete operands (a
named node has no effective boolean value). -/
theorem or_three_valued_w :
    evalExpression ds0 (.Or (.Constant (.NamedNode 1)) (.Constant (.BooleanLiteral true)))
      [] st0 = (st0, .ok (some (.BooleanLiteral true))) :=
  (or_three_valued ds0 (.Constant (.NamedNode 1)) (.Constant (.BooleanLiteral true))
    [] st0 st0 st0 (.NamedNode 1) (.BooleanLiteral true)).2.2.2.1 rfl rfl rfl rfl

/-- Claim C7: at the failing input `Div(1, 0)` over integers the source
computes `v1 / v2` with Rust's `/`, which panics on a zero divisor
(modelled `Except.error ()`) instead of returning the SPARQL type error
the claim describes; likewise for decimals; nonzero integer division
truncates toward zero as specified. -/
theorem div_by_zero_panics :
    evalExpression ds0 (.Div (.Constant (.IntegerLiteral 1)) (.Constant (.IntegerLiteral 0)))
      [] st0 = (st0, .error ())
    ∧ evalExpression ds0 (.Div (.Constant (.DecimalLiteral 1)) (.Constant (.DecimalLiteral 0)))
      [] st0 = (st0, .error ())
    ∧ evalExpression ds0 (.Div (.Constant (.IntegerLiteral 7)) (.Constant (.IntegerLiteral 2)))
      [] st0 = (st0, .ok (some (.IntegerLiteral 3)))
    ∧ evalExpression ds0 (.Div (.Constant (.IntegerLiteral (-7))) (.Constant (.IntegerLiteral 2)))
      [] st0 = (st0, .ok (some (.IntegerLiteral (-3)))) := by
  decide

/-- Claim C8, counterexample: `get_tuple_value` at index 1 of a length-1
row yields unbound, but Project's direct indexing at the same out-of-range
position panics (modelled `Except.error ()`), contradicting the claim that
Project reads `row[mapping[i]]` totally. -/
theorem project_out_of_range_cx :
    projectRow [1] [some (.NamedNode 0)] = .error ()
    ∧ getTupleValue 1 [some (.NamedNode 0)] = none := by
  decide

/-- Claim C8, amended: reading a slot through `get_tuple_value` at or past
the tuple's end yields unbound and never fails; Project, however, reads
`row[mapping[i]]` by direct indexing, which is total only when every
mapping index is within the row's length — and then output slot `i` equals
`row[mapping[i]]` — and panics otherwise. -/
theorem tuple_read_total_project_in_range :
    (∀ (v : Nat) (tuple : EncodedTuple), tuple.length ≤ v → getTupleValue v tuple = none)
    ∧ (∀ (mapping : List Nat) (tuple : EncodedTuple),
        (∀ k ∈ mapping, k < tuple.length) →
        projectRow mapping tuple = .ok (mapping.map (fun k => getTupleValue k tuple))) := by
  constructor
  · intro v tuple h
    rw [getTupleValue, dif_neg (by omega)]
  · intro mapping tuple h
    induction mapping with
    | nil => rfl
    | cons k ks ih =>
      have hk : k < tuple.length := h k (by simp)
      simp only [projectRow, dif_pos hk, List.map_cons,
        ih (fun k2 h2 => h k2 (by simp [h2]))]
      simp [getTupleValue, hk, Except.map]

/-- Claim C8, witness: the amended theorem at concrete inputs. -/
theorem tuple_read_total_project_in_range_w :
    getTupleValue 5 [] = none
    ∧ projectRow [0, 0] [some (.NamedNode 4)] =
        .ok [some (.NamedNode 4), some (.NamedNode 4)] := by
  constructor
  · exact tuple_read_total_project_in_range.1 5 [] (by decide)
  · have h := tuple_read_total_project_in_range.2 [0, 0] [some (.NamedNode 4)] (by decide)
    simpa [getTupleValue] using h

/-- Claim C9: for Join, the materialized left side's infrastructural
errors are all emitted before anything derived from the right stream (in
particular before any successful joined row); for Sort, the child's errors
are emitted first, in the child's input order, followed by the sorted
successful rows, which are a permutation of the child's successful rows. -/
theorem join_sort_errors_first :
    (∀ leftResults rights : List TupleResult,
      joinNode leftResults rights =
        ((errParts leftResults).map Except.error).reverse ++
          joinStep (okParts leftResults) [] rights)
    ∧ (∀ (cmp : EncodedTuple → EncodedTuple → Ordering) (input : List TupleResult),
      sortNode cmp input =
        (errParts input).map Except.error ++ (sortBy cmp (okParts input)).map Except.ok
      ∧ List.Perm (sortBy cmp (okParts input)) (okParts input)) := by
  constructor
  · intro leftResults rights
    rw [joinNode, joinStep_drain]
  · intro cmp input
    exact ⟨by simp [sortNode, sortCollect_eq], sortBy_perm cmp (okParts input)⟩

/-- Claim C10: when the right subplan's stream for a left tuple begins with
an infrastructural error, the LeftJoin iterator emits exactly the right
stream (the error first) for that left tuple and never falls back to
emitting the left tuple itself, even though the right side produced no
successful row. -/
theorem leftjoin_right_error_no_fallback (rightEval : EncodedTuple → List TupleResult)
    (e : Nat) (rs : List TupleResult) (lt : EncodedTuple) (ls : List TupleResult)
    (h : rightEval lt = .error e :: rs) :
    leftJoinRun rightEval (.ok lt :: ls) =
      .error e :: (rs ++ leftJoinRun rightEval ls) := by
  simp [leftJoinRun, h]

/-- Claim C10, witness: the theorem at a concrete right-plan denotation. -/
theorem leftjoin_right_error_no_fallback_w :
    leftJoinRun rightErrFirst [Except.ok []] = [Except.error 7] := by
  have h := leftjoin_right_error_no_fallback rightErrFirst 7 [] [] [] rfl
  simpa [leftJoinRun] using h

end Oxigraph
